import Mathlib

/- Verification of the dashcam MP4 telemetry extractor (src/dashcam-mp4.js).
   The byte buffer is a `List Nat` (one entry per byte).  DataView reads that
   would throw a RangeError in JavaScript are modelled as `Except.error ()`;
   all other control flow is translated directly from the source.  Loops are
   expressed with an explicit fuel argument large enough to cover every
   iteration the source loop can perform (each iteration strictly advances the
   cursor), so the definitions stay executable. -/

deriving instance DecidableEq for Except

/-- `DataView.getUint8`: one byte, or a range error past the end. -/
def getUint8 (b : List Nat) (off : Nat) : Except Unit Nat :=
  if off < b.length then .ok b[off]! else .error ()

/-- `DataView.getUint32`: big-endian 4-byte read, or a range error. -/
def getUint32 (b : List Nat) (off : Nat) : Except Unit Nat :=
  if off + 4 ≤ b.length then
    .ok (b[off]! * 16777216 + b[(off+1)]! * 65536 + b[(off+2)]! * 256 + b[(off+3)]!)
  else .error ()

/-- `getString(offset, 4)`: the four tag bytes, or a range error (the JS
    helper reads the bytes one `getUint8` at a time, so it throws exactly when
    the 4-byte range overruns the buffer). -/
def getString4 (b : List Nat) (off : Nat) : Except Unit (List Nat) :=
  if off + 4 ≤ b.length then .ok [b[off]!, b[(off+1)]!, b[(off+2)]!, b[(off+3)]!]
  else .error ()

/-- A parsed box header, as returned by `findBox`. -/
structure Box where
  offset : Nat
  size : Nat
  type : List Nat
deriving DecidableEq

def moovTag : List Nat := [109, 111, 111, 118]
def trakTag : List Nat := [116, 114, 97, 107]
def mdiaTag : List Nat := [109, 100, 105, 97]
def mdhdTag : List Nat := [109, 100, 104, 100]
def minfTag : List Nat := [109, 105, 110, 102]
def stblTag : List Nat := [115, 116, 98, 108]
def sttsTag : List Nat := [115, 116, 116, 115]
def mdatTag : List Nat := [109, 100, 97, 116]
def freeTag : List Nat := [102, 114, 101, 101]

/-- The `findBox` while-loop.  Fuel only bounds the iteration count; the
    wrapper `findBox` supplies enough fuel for every reachable iteration
    (each pass advances `offset` by at least 2 while `offset < finish`). -/
def findBoxAux (b name : List Nat) (finish : Nat) : Nat → Nat → Except Unit (Option Box)
  | 0, _ => .ok none
  | fuel+1, offset =>
    if offset < finish then
      match getUint32 b offset with
      | .error e => .error e
      | .ok size =>
        match getString4 b (offset + 4) with
        | .error e => .error e
        | .ok type =>
          if size = 0 then .ok none
          else if size = 1 then findBoxAux b name finish fuel (offset + 16)
          else if type = name then .ok (some ⟨offset, size, type⟩)
          else findBoxAux b name finish fuel (offset + size)
    else .ok none

/-- `findBox(start, end, name)` from the source. -/
def findBox (b name : List Nat) (start finish : Nat) : Except Unit (Option Box) :=
  findBoxAux b name finish (finish - start + 1) start

/-- The `stts` unrolling loop of `getTimescaleAndDurations` (lines 78-85):
    for each of `n` entries read `(sampleCount, sampleDelta)` and append
    `sampleDelta` to the accumulator `sampleCount` times. -/
def sttsLoop (b : List Nat) : Nat → Nat → List Nat → Except Unit (List Nat)
  | _, 0, acc => .ok acc
  | pos, n+1, acc =>
    match getUint32 b pos with
    | .error e => .error e
    | .ok sampleCount =>
      match getUint32 b (pos + 4) with
      | .error e => .error e
      | .ok sampleDelta => sttsLoop b (pos + 8) n (acc ++ List.replicate sampleCount sampleDelta)

/-- `{ timescale, durations }` as produced by `getTimescaleAndDurations`. -/
structure TrackTiming where
  timescale : Nat
  durations : List Nat
deriving DecidableEq

/-- `getTimescaleAndDurations()`: walk moov → trak → mdia → mdhd, read
    version and timescale, then walk mdia → minf → stbl → stts and unroll the
    duration table; each missing box of the second walk degrades to an empty
    duration list.  `Except.error` is a propagated RangeError. -/
def getTimescaleAndDurations (b : List Nat) : Except Unit (Option TrackTiming) :=
  match findBox b moovTag 0 b.length with
  | .error e => .error e
  | .ok none => .ok none
  | .ok (some moov) =>
    match findBox b trakTag (moov.offset + 8) (moov.offset + moov.size) with
    | .error e => .error e
    | .ok none => .ok none
    | .ok (some trak) =>
      match findBox b mdiaTag (trak.offset + 8) (trak.offset + trak.size) with
      | .error e => .error e
      | .ok none => .ok none
      | .ok (some mdia) =>
        match findBox b mdhdTag (mdia.offset + 8) (mdia.offset + mdia.size) with
        | .error e => .error e
        | .ok none => .ok none
        | .ok (some mdhd) =>
          match getUint8 b (mdhd.offset + 8) with
          | .error e => .error e
          | .ok version =>
            match (if version = 0 then getUint32 b (mdhd.offset + 8 + 12)
                   else getUint32 b (mdhd.offset + 8 + 20)) with
            | .error e => .error e
            | .ok timescale =>
              match findBox b minfTag (mdia.offset + 8) (mdia.offset + mdia.size) with
              | .error e => .error e
              | .ok none => .ok (some ⟨timescale, []⟩)
              | .ok (some minf) =>
                match findBox b stblTag (minf.offset + 8) (minf.offset + minf.size) with
                | .error e => .error e
                | .ok none => .ok (some ⟨timescale, []⟩)
                | .ok (some stbl) =>
                  match findBox b sttsTag (stbl.offset + 8) (stbl.offset + stbl.size) with
                  | .error e => .error e
                  | .ok none => .ok (some ⟨timescale, []⟩)
                  | .ok (some stts) =>
                    match getUint32 b (stts.offset + 8 + 4) with
                    | .error e => .error e
                    | .ok entryCount =>
                      match sttsLoop b (stts.offset + 8 + 8) entryCount [] with
                      | .error e => .error e
                      | .ok durations => .ok (some ⟨timescale, durations⟩)

/-- `getMdatInfo()`: locate the mdat box over the whole buffer. -/
def getMdatInfo (b : List Nat) : Except Unit (Option Box) :=
  findBox b mdatTag 0 b.length

/-- Length of the leading run of `0x42` bytes; `3 + run42 (nal.drop 3)` is
    the index where the `while (i < nal.length && nal[i] === 0x42) i++` loop
    of `decodeSei` stops when started at 3. -/
def run42 : List Nat → Nat
  | [] => 0
  | x :: xs => if x = 66 then run42 xs + 1 else 0

/-- `stripEmulationBytes(data)`: drop every byte equal to `0x03` whose two
    predecessors in the input are both `0x00`; keep everything else in
    order (the JS loop tests `data[i-2]`/`data[i-1]` of the input array). -/
def stripEmulationBytes (data : List Nat) : List Nat :=
  (List.range data.length).filterMap fun i =>
    if 2 ≤ i ∧ data[(i-2)]! = 0 ∧ data[(i-1)]! = 0 ∧ data[i]! = 3 then none
    else some data[i]!

/-- The pure part of `decodeSei`: marker search, payload slice, emulation
    strip and the minimum-size check.  Returns the candidate protobuf bytes
    handed to the external decoder, or `none` when the unit carries no
    payload (every such case returns `null` in the source, never an error). -/
def seiPayload (nal : List Nat) : Option (List Nat) :=
  if nal.length < 4 then none
  else
    let i := 3 + run42 (nal.drop 3)
    if i ≤ 3 ∨ nal.length ≤ i + 1 ∨ nal[i]? ≠ some 105 then none
    else
      let protobufData := stripEmulationBytes ((nal.drop (i+1)).take (nal.length - 1 - (i+1)))
      if protobufData.length < 4 then none else some protobufData

/-- `decodeSei(nal, seiType)`: the external `seiType.decode` + `toObject`
    pair is modelled by `dec`; a decode exception is caught in the source and
    becomes `none` here. -/
def decodeSei {α : Type} (dec : List Nat → Option α) (nal : List Nat) : Option α :=
  match seiPayload nal with
  | none => none
  | some p => dec p

/-- The scanning while-loop of `extractSeiMessages` (lines 109-131).  Fuel
    only bounds the iteration count; the wrapper supplies enough fuel for
    every reachable iteration (each pass advances `cursor` by at least 4).
    `Except.error` is a propagated RangeError from the length read. -/
def seiLoop {α : Type} (b : List Nat) (dec : List Nat → Option α) (finish : Nat) :
    Nat → Nat → List α → Except Unit (List α)
  | 0, _, acc => .ok acc
  | fuel+1, cursor, acc =>
    if cursor + 4 ≤ finish then
      match getUint32 b cursor with
      | .error e => .error e
      | .ok nalSize =>
        if nalSize < 2 ∨ b.length < cursor + 4 + nalSize then
          seiLoop b dec finish fuel (cursor + 4 + max nalSize 0) acc
        else
          match getUint8 b (cursor + 4) with
          | .error e => .error e
          | .ok b0 =>
            match getUint8 b (cursor + 4 + 1) with
            | .error e => .error e
            | .ok b1 =>
              if b0 % 32 = 6 ∧ b1 = 5 then
                match decodeSei dec ((b.drop (cursor + 4)).take nalSize) with
                | some m => seiLoop b dec finish fuel (cursor + 4 + nalSize) (acc ++ [m])
                | none => seiLoop b dec finish fuel (cursor + 4 + nalSize) acc
              else seiLoop b dec finish fuel (cursor + 4 + nalSize) acc
    else .ok acc

/-- `extractSeiMessages(seiType)`: locate mdat and scan it from content
    offset 8 up to the declared box end. -/
def extractSeiMessages {α : Type} (b : List Nat) (dec : List Nat → Option α) :
    Except Unit (List α) :=
  match getMdatInfo b with
  | .error e => .error e
  | .ok none => .ok []
  | .ok (some mdat) =>
    seiLoop b dec (mdat.offset + mdat.size) (mdat.offset + mdat.size + 1) (mdat.offset + 8) []

/-- The timestamp loop of `processSingleVideo` (lines 264-269): emit
    `time / timescale` then add the duration.  JavaScript number division is
    modelled as exact rational division: this identifies which sequence the
    program builds and returns, but not the IEEE-754 double values it
    computes, so no numeric property is claimed of it. -/
def tsLoop (timescale : Nat) : Nat → List Nat → List ℚ
  | _, [] => []
  | time, d :: ds => ((time : ℚ) / (timescale : ℚ)) :: tsLoop timescale (time + d) ds

/-- Frame timestamps built from a `TrackTiming`. -/
def buildTimestamps (t : TrackTiming) : List ℚ :=
  tsLoop t.timescale 0 t.durations

/-- The failure modes of `processSingleVideo`: the two thrown `Error`s plus a
    propagated RangeError from an out-of-bounds DataView read. -/
inductive ExtractErr
  | rangeErr
  | missingTiming
  | noTelemetry
deriving DecidableEq

/-- The core fields of the object returned by `processSingleVideo` (the
    `file`, `url` and `label` fields are external I/O and UI concerns). -/
structure ExtractResult (α : Type) where
  telemetry : List α
  frameTimestamps : List ℚ
deriving DecidableEq

/-- The extraction pipeline of `processSingleVideo` (lines 257-278): timing,
    then SEI messages, then the two file-level failure checks, then the
    timestamp build. -/
def extract {α : Type} (b : List Nat) (dec : List Nat → Option α) :
    Except ExtractErr (ExtractResult α) :=
  match getTimescaleAndDurations b with
  | .error _ => .error .rangeErr
  | .ok none => .error .missingTiming
  | .ok (some timing) =>
    match extractSeiMessages b dec with
    | .error _ => .error .rangeErr
    | .ok msgs =>
      if msgs.length = 0 then .error .noTelemetry
      else .ok ⟨msgs, buildTimestamps timing⟩

/- Concrete buffers and decoders used by witnesses and counterexamples. -/

/-- Ten-byte buffer: one 9-byte `free` box followed by a single trailing
    byte, so the box scan reaches offset 9 with only one byte left. -/
def ex1 : List Nat := [0, 0, 0, 9, 102, 114, 101, 101, 0, 0]

/-- A 48-byte moov box holding trak → mdia → mdhd (version 0, timescale 600)
    and nothing else: a complete timing-header chain with no minf and no
    mdat box. -/
def bC5 : List Nat :=
  [0, 0, 0, 48, 109, 111, 111, 118,
   0, 0, 0, 40, 116, 114, 97, 107,
   0, 0, 0, 32, 109, 100, 105, 97,
   0, 0, 0, 24, 109, 100, 104, 100,
   0, 0, 0, 0, 0, 0, 0, 0, 0, 0, 0, 0, 0, 0, 2, 88]

/-- A 27-byte mdat box whose content is a corrupt unit (declared length 1)
    followed by a valid SEI unit of declared length 10 whose payload decodes
    via `decC2`. -/
def exC2 : List Nat :=
  [0, 0, 0, 27, 109, 100, 97, 116,
   0, 0, 0, 1, 170,
   0, 0, 0, 10, 6, 5, 0, 66, 105, 9, 9, 9, 9, 119]

/-- Timing chain and mdat together: `bC5` followed by `exC2`. -/
def bFull : List Nat := bC5 ++ exC2

/-- A test schema decoder: decodes exactly the payload `[9, 9, 9, 9]`. -/
def decC2 : List Nat → Option Nat :=
  fun l => if l = [9, 9, 9, 9] then some 42 else none

/-- Raw bytes of an stts box content: entry count 2 at offset 4, then the
    entries (2, 7) and (1, 9). -/
def b6 : List Nat :=
  [0, 0, 0, 0, 0, 0, 0, 2, 0, 0, 0, 2, 0, 0, 0, 7, 0, 0, 0, 1, 0, 0, 0, 9]

/-- Box with declared size 0 whose own tag is moov. -/
def b8a : List Nat := [0, 0, 0, 0, 109, 111, 111, 118]

/-- Box with declared size 1 (tagged moov) and extended-size bytes, followed
    by a real moov box at offset 16. -/
def b8b : List Nat :=
  [0, 0, 0, 1, 109, 111, 111, 118, 1, 2, 3, 4, 5, 6, 7, 8,
   0, 0, 0, 8, 109, 111, 111, 118]

/-- A single 16-byte moov box. -/
def b8c : List Nat := [0, 0, 0, 16, 109, 111, 111, 118, 0, 0, 0, 0, 0, 0, 0, 0]

/-- An 8-byte free box followed by an 8-byte moov box. -/
def b8d : List Nat := [0, 0, 0, 8, 102, 114, 101, 101, 0, 0, 0, 8, 109, 111, 111, 118]

theorem findBoxAux_fuel (b name : List Nat) (finish : Nat) :
    ∀ f1 f2 offset, finish - offset < f1 → finish - offset < f2 →
      findBoxAux b name finish f1 offset = findBoxAux b name finish f2 offset := by
  intro f1
  induction f1 with
  | zero => intro f2 offset h1 _; exact absurd h1 (Nat.not_lt_zero _)
  | succ n ih =>
    intro f2 offset h1 h2
    match f2 with
    | 0 => exact absurd h2 (Nat.not_lt_zero _)
    | m + 1 =>
      simp only [findBoxAux]
      by_cases ho : offset < finish
      · rw [if_pos ho, if_pos ho]
        cases hg : getUint32 b offset with
        | error e => rfl
        | ok size =>
          cases hs : getString4 b (offset + 4) with
          | error e => rfl
          | ok type =>
            dsimp only
            split_ifs with h0 h1s ht
            · rfl
            · exact ih m (offset + 16) (by omega) (by omega)
            · rfl
            · exact ih m (offset + size) (by omega) (by omega)
      · rw [if_neg ho, if_neg ho]

theorem findBoxAux_ne_error (b name : List Nat) (finish : Nat) (hb : finish + 7 ≤ b.length) :
    ∀ fuel offset, findBoxAux b name finish fuel offset ≠ .error () := by
  intro fuel
  induction fuel with
  | zero => intro offset h; simp [findBoxAux] at h
  | succ n ih =>
    intro offset h
    simp only [findBoxAux] at h
    by_cases ho : offset < finish
    · rw [if_pos ho, getUint32, if_pos (show offset + 4 ≤ b.length by omega),
        getString4, if_pos (show offset + 4 + 4 ≤ b.length by omega)] at h
      dsimp only at h
      split_ifs at h with h0 h1s ht
      all_goals exact ih _ h
    · rw [if_neg ho] at h
      simp at h

/-- C8: a size-0 box stops the scan with not-found even when its tag (or a
    later one) matches; a size-1 box advances the cursor by exactly 16 bytes
    and is never matched; otherwise the first tag match is returned
    immediately, and a non-matching box advances the cursor by its size. -/
theorem boxNavigatorScanCases (b name : List Nat) (start finish size : Nat) (type : List Nat)
    (ho : start < finish) (hg : getUint32 b start = .ok size)
    (hs : getString4 b (start + 4) = .ok type) :
    (size = 0 → findBox b name start finish = .ok none) ∧
    (size = 1 → findBox b name start finish = findBox b name (start + 16) finish) ∧
    (size ≠ 0 → size ≠ 1 → type = name →
      findBox b name start finish = .ok (some ⟨start, size, type⟩)) ∧
    (size ≠ 0 → size ≠ 1 → type ≠ name →
      findBox b name start finish = findBox b name (start + size) finish) := by
  refine ⟨?_, ?_, ?_, ?_⟩
  · intro h0
    rw [findBox]
    simp only [findBoxAux, if_pos ho, hg, hs]
    rw [if_pos h0]
  · intro h1s
    rw [findBox]
    simp only [findBoxAux, if_pos ho, hg, hs]
    rw [if_neg (by omega), if_pos h1s, findBox]
    exact findBoxAux_fuel b name finish _ _ (start + 16) (by omega) (by omega)
  · intro h0 h1s ht
    rw [findBox]
    simp only [findBoxAux, if_pos ho, hg, hs]
    rw [if_neg h0, if_neg h1s, if_pos ht]
  · intro h0 h1s ht
    rw [findBox]
    simp only [findBoxAux, if_pos ho, hg, hs]
    rw [if_neg h0, if_neg h1s, if_neg ht, findBox]
    exact findBoxAux_fuel b name finish _ _ (start + size) (by omega) (by omega)

theorem boxNavigatorScanCasesWitness :
    findBox b8a moovTag 0 8 = .ok none ∧
    findBox b8b moovTag 0 24 = findBox b8b moovTag 16 24 ∧
    findBox b8c moovTag 0 16 = .ok (some ⟨0, 16, moovTag⟩) ∧
    findBox b8d moovTag 0 16 = findBox b8d moovTag 8 16 :=
  ⟨(boxNavigatorScanCases b8a moovTag 0 8 0 moovTag (by decide) (by decide) (by decide)).1 rfl,
   (boxNavigatorScanCases b8b moovTag 0 24 1 moovTag (by decide) (by decide) (by decide)).2.1 rfl,
   (boxNavigatorScanCases b8c moovTag 0 16 16 moovTag (by decide) (by decide)
     (by decide)).2.2.1 (by decide) (by decide) rfl,
   (boxNavigatorScanCases b8d moovTag 0 16 8 freeTag (by decide) (by decide)
     (by decide)).2.2.2 (by decide) (by decide) (by decide)⟩

/-- C1 (amended): region bound checks alone do not prevent reads past the
    buffer; when every position of the region leaves room for an 8-byte
    header (finish + 7 ≤ buffer length) the navigator never errors, but a
    scan position with fewer than 8 bytes of buffer left raises a propagated
    range error instead of being treated as not-found. -/
theorem boxNavigatorBounds (b name : List Nat) (start finish : Nat) :
    (finish + 7 ≤ b.length → findBox b name start finish ≠ .error ()) ∧
    (start < finish → b.length < start + 8 → findBox b name start finish = .error ()) := by
  constructor
  · intro hb
    exact findBoxAux_ne_error b name finish hb _ _
  · intro ho hlen
    rw [findBox]
    simp only [findBoxAux, if_pos ho]
    by_cases h4 : start + 4 ≤ b.length
    · rw [getUint32, if_pos h4, getString4, if_neg (by omega)]
    · rw [getUint32, if_neg h4]

theorem boxNavigatorBoundsWitness :
    (findBox bC5 moovTag 0 41 ≠ .error ()) ∧ findBox ex1 moovTag 9 10 = .error () :=
  ⟨(boxNavigatorBounds bC5 moovTag 0 41).1 (by decide),
   (boxNavigatorBounds ex1 moovTag 9 10).2 (by decide) (by decide)⟩

/-- C1 counterexample: scanning the 10-byte buffer `ex1` for a moov box
    reaches offset 9 (inside the region) where the 4-byte size read overruns
    the buffer, and the whole pipeline propagates the range error instead of
    reporting not-found. -/
theorem boundsCheckCex :
    findBox ex1 moovTag 0 ex1.length = .error () ∧
    getTimescaleAndDurations ex1 = .error () := by
  constructor <;> decide

/-- C2: the scanner stops once fewer than 4 bytes remain before the box end;
    a unit whose declared length is below 2 or would overrun the buffer is
    skipped, without error, by advancing max(length, 0) past the 4 length
    bytes; and on the synthetic mdat `exC2` the valid decodable unit placed
    after the corrupt length-1 unit is still recovered. -/
theorem seiScannerSkips {α : Type} (b : List Nat) (dec : List Nat → Option α)
    (finish fuel cursor : Nat) (acc : List α) (n : Nat) :
    (finish < cursor + 4 → seiLoop b dec finish (fuel + 1) cursor acc = .ok acc) ∧
    (cursor + 4 ≤ finish → getUint32 b cursor = .ok n →
      (n < 2 ∨ b.length < cursor + 4 + n) →
      seiLoop b dec finish (fuel + 1) cursor acc
        = seiLoop b dec finish fuel (cursor + 4 + max n 0) acc) ∧
    extractSeiMessages exC2 decC2 = .ok [42] := by
  refine ⟨?_, ?_, by decide⟩
  · intro hstop
    simp only [seiLoop, if_neg (show ¬ (cursor + 4 ≤ finish) by omega)]
  · intro hc hg hskip
    simp only [seiLoop, if_pos hc, hg]
    rw [if_pos hskip]

theorem seiScannerSkipsWitness :
    seiLoop exC2 decC2 27 1 24 [] = .ok [] ∧
    seiLoop exC2 decC2 27 4 8 [] = seiLoop exC2 decC2 27 3 13 [] ∧
    extractSeiMessages exC2 decC2 = .ok [42] :=
  ⟨(seiScannerSkips exC2 decC2 27 0 24 [] 0).1 (by decide),
   (seiScannerSkips exC2 decC2 27 3 8 [] 1).2.1 (by decide) (by decide) (by decide),
   (seiScannerSkips exC2 decC2 27 0 0 [] 0).2.2⟩

/-- C10: with timing present but no mdat box anywhere, the scanner returns
    an empty message list without error, so extraction fails with
    NoTelemetryError rather than MissingTimingError or a propagated error. -/
theorem noMdatGivesNoTelemetry {α : Type} (b : List Nat) (dec : List Nat → Option α)
    (t : TrackTiming) (htiming : getTimescaleAndDurations b = .ok (some t))
    (hmdat : getMdatInfo b = .ok none) :
    extractSeiMessages b dec = .ok ([] : List α) ∧
    extract b dec = .error .noTelemetry := by
  have hsei : extractSeiMessages b dec = .ok ([] : List α) := by
    simp only [extractSeiMessages, hmdat]
  exact ⟨hsei, by simp [extract, htiming, hsei]⟩

theorem noMdatGivesNoTelemetryWitness :
    extractSeiMessages bC5 decC2 = .ok ([] : List Nat) ∧
    extract bC5 decC2 = .error .noTelemetry :=
  noMdatGivesNoTelemetry bC5 decC2 ⟨600, []⟩ (by decide) (by decide)

/-- C3 (amended): unless an out-of-bounds read aborts parsing with a
    propagated range error, extraction fails with MissingTimingError exactly
    when the timing extractor returns not-found, fails with NoTelemetryError
    exactly when timing was found and the scanner produced zero records
    (per-unit decode failures are swallowed inside the scanner and never
    surface), and otherwise returns the records in scan order together with
    the timestamps built independently from the durations. -/
theorem extractCharacterization {α : Type} (b : List Nat) (dec : List Nat → Option α) :
    (extract b dec = .error .missingTiming ↔ getTimescaleAndDurations b = .ok none) ∧
    (extract b dec = .error .noTelemetry ↔
      (∃ t, getTimescaleAndDurations b = .ok (some t) ∧
        extractSeiMessages b dec = .ok ([] : List α))) ∧
    (∀ (t : TrackTiming) (msgs : List α),
      getTimescaleAndDurations b = .ok (some t) → extractSeiMessages b dec = .ok msgs →
      msgs ≠ [] → extract b dec = .ok ⟨msgs, buildTimestamps t⟩) := by
  refine ⟨?_, ?_, ?_⟩
  · constructor
    · intro h
      rw [extract] at h
      cases ht : getTimescaleAndDurations b with
      | error e => rw [ht] at h; simp at h
      | ok o =>
        cases o with
        | none => rfl
        | some t =>
          rw [ht] at h
          dsimp only at h
          cases hs : extractSeiMessages b dec with
          | error e => rw [hs] at h; simp at h
          | ok msgs =>
            rw [hs] at h
            dsimp only at h
            split_ifs at h
            all_goals simp at h
    · intro h
      simp [extract, h]
  · constructor
    · intro h
      rw [extract] at h
      cases ht : getTimescaleAndDurations b with
      | error e => rw [ht] at h; simp at h
      | ok o =>
        cases o with
        | none => rw [ht] at h; simp at h
        | some t =>
          rw [ht] at h
          dsimp only at h
          cases hs : extractSeiMessages b dec with
          | error e => rw [hs] at h; simp at h
          | ok msgs =>
            rw [hs] at h
            dsimp only at h
            split_ifs at h with hlen
            · exact ⟨t, rfl, by rw [List.length_eq_zero.mp hlen]⟩
    · rintro ⟨t, ht, hs⟩
      simp [extract, ht, hs]
  · intro t msgs ht hs hne
    have hlen : ¬ msgs.length = 0 := by simpa [List.length_eq_zero] using hne
    simp [extract, ht, hs, hlen]

/-- C3 counterexample: on the truncated buffer `ex1` the timing extractor
    neither returns not-found nor a timing (it propagates a range error), and
    extraction fails with that propagated error — neither MissingTimingError
    nor NoTelemetryError, and no result is returned. -/
theorem extractTrichotomyCex :
    extract ex1 decC2 = .error .rangeErr ∧ getTimescaleAndDurations ex1 = .error () := by
  constructor <;> decide

theorem extractCharacterizationWitness :
    extract bFull decC2 = .ok ⟨[42], buildTimestamps ⟨600, []⟩⟩ :=
  (extractCharacterization bFull decC2).2.2 ⟨600, []⟩ [42] (by decide) (by decide) (by decide)

/-- C5: the timing extractor returns not-found only when a box of the
    moov → trak → mdia → mdhd chain is absent; with that chain present the
    timescale is the 4-byte big-endian word at media-header content offset 12
    when the version byte is 0 and at content offset 20 otherwise, and a
    missing minf, stbl or stts box yields that timescale paired with an empty
    duration list instead of a failure. -/
theorem timingExtractorStructure (b : List Nat) :
    (getTimescaleAndDurations b = .ok none →
      findBox b moovTag 0 b.length = .ok none ∨
      (∃ moov, findBox b moovTag 0 b.length = .ok (some moov) ∧
        (findBox b trakTag (moov.offset + 8) (moov.offset + moov.size) = .ok none ∨
         (∃ trak, findBox b trakTag (moov.offset + 8) (moov.offset + moov.size) = .ok (some trak) ∧
           (findBox b mdiaTag (trak.offset + 8) (trak.offset + trak.size) = .ok none ∨
            (∃ mdia, findBox b mdiaTag (trak.offset + 8) (trak.offset + trak.size) = .ok (some mdia) ∧
              findBox b mdhdTag (mdia.offset + 8) (mdia.offset + mdia.size) = .ok none)))))) ∧
    (∀ moov trak mdia mdhd version timescale,
      findBox b moovTag 0 b.length = .ok (some moov) →
      findBox b trakTag (moov.offset + 8) (moov.offset + moov.size) = .ok (some trak) →
      findBox b mdiaTag (trak.offset + 8) (trak.offset + trak.size) = .ok (some mdia) →
      findBox b mdhdTag (mdia.offset + 8) (mdia.offset + mdia.size) = .ok (some mdhd) →
      getUint8 b (mdhd.offset + 8) = .ok version →
      (if version = 0 then getUint32 b (mdhd.offset + 8 + 12)
       else getUint32 b (mdhd.offset + 8 + 20)) = .ok timescale →
      ((findBox b minfTag (mdia.offset + 8) (mdia.offset + mdia.size) = .ok none →
         getTimescaleAndDurations b = .ok (some ⟨timescale, []⟩)) ∧
       (∀ minf, findBox b minfTag (mdia.offset + 8) (mdia.offset + mdia.size) = .ok (some minf) →
         findBox b stblTag (minf.offset + 8) (minf.offset + minf.size) = .ok none →
         getTimescaleAndDurations b = .ok (some ⟨timescale, []⟩)) ∧
       (∀ minf stbl,
         findBox b minfTag (mdia.offset + 8) (mdia.offset + mdia.size) = .ok (some minf) →
         findBox b stblTag (minf.offset + 8) (minf.offset + minf.size) = .ok (some stbl) →
         findBox b sttsTag (stbl.offset + 8) (stbl.offset + stbl.size) = .ok none →
         getTimescaleAndDurations b = .ok (some ⟨timescale, []⟩)))) := by
  constructor
  · intro h
    rw [getTimescaleAndDurations] at h
    cases h1 : findBox b moovTag 0 b.length with
    | error e => rw [h1] at h; simp at h
    | ok o1 =>
      cases o1 with
      | none => exact Or.inl rfl
      | some moov =>
        rw [h1] at h
        dsimp only at h
        refine Or.inr ⟨moov, rfl, ?_⟩
        cases h2 : findBox b trakTag (moov.offset + 8) (moov.offset + moov.size) with
        | error e => rw [h2] at h; simp at h
        | ok o2 =>
          cases o2 with
          | none => exact Or.inl rfl
          | some trak =>
            rw [h2] at h
            dsimp only at h
            refine Or.inr ⟨trak, rfl, ?_⟩
            cases h3 : findBox b mdiaTag (trak.offset + 8) (trak.offset + trak.size) with
            | error e => rw [h3] at h; simp at h
            | ok o3 =>
              cases o3 with
              | none => exact Or.inl rfl
              | some mdia =>
                rw [h3] at h
                dsimp only at h
                refine Or.inr ⟨mdia, rfl, ?_⟩
                cases h4 : findBox b mdhdTag (mdia.offset + 8) (mdia.offset + mdia.size) with
                | error e => rw [h4] at h; simp at h
                | ok o4 =>
                  cases o4 with
                  | none => rfl
                  | some mdhd =>
                    rw [h4] at h
                    dsimp only at h
                    exfalso
                    cases h5 : getUint8 b (mdhd.offset + 8) with
                    | error e => rw [h5] at h; simp at h
                    | ok version =>
                      rw [h5] at h
                      dsimp only at h
                      cases h6 : (if version = 0 then getUint32 b (mdhd.offset + 8 + 12)
                                  else getUint32 b (mdhd.offset + 8 + 20)) with
                      | error e => rw [h6] at h; simp at h
                      | ok timescale =>
                        rw [h6] at h
                        dsimp only at h
                        cases h7 : findBox b minfTag (mdia.offset + 8) (mdia.offset + mdia.size) with
                        | error e => rw [h7] at h; simp at h
                        | ok o5 =>
                          cases o5 with
                          | none => rw [h7] at h; simp at h
                          | some minf =>
                            rw [h7] at h
                            dsimp only at h
                            cases h8 : findBox b stblTag (minf.offset + 8) (minf.offset + minf.size) with
                            | error e => rw [h8] at h; simp at h
                            | ok o6 =>
                              cases o6 with
                              | none => rw [h8] at h; simp at h
                              | some stbl =>
                                rw [h8] at h
                                dsimp only at h
                                cases h9 : findBox b sttsTag (stbl.offset + 8) (stbl.offset + stbl.size) with
                                | error e => rw [h9] at h; simp at h
                                | ok o7 =>
                                  cases o7 with
                                  | none => rw [h9] at h; simp at h
                                  | some stts =>
                                    rw [h9] at h
                                    dsimp only at h
                                    cases h10 : getUint32 b (stts.offset + 8 + 4) with
                                    | error e => rw [h10] at h; simp at h
                                    | ok entryCount =>
                                      rw [h10] at h
                                      dsimp only at h
                                      cases h11 : sttsLoop b (stts.offset + 8 + 8) entryCount [] with
                                      | error e => rw [h11] at h; simp at h
                                      | ok durations => rw [h11] at h; simp at h
  · intro moov trak mdia mdhd version timescale hmoov htrak hmdia hmdhd hv hts
    refine ⟨?_, ?_, ?_⟩
    · intro hminf
      simp only [getTimescaleAndDurations, hmoov, htrak, hmdia, hmdhd, hv, hts, hminf]
    · intro minf hminf hstbl
      simp only [getTimescaleAndDurations, hmoov, htrak, hmdia, hmdhd, hv, hts, hminf, hstbl]
    · intro minf stbl hminf hstbl hstts
      simp only [getTimescaleAndDurations, hmoov, htrak, hmdia, hmdhd, hv, hts, hminf, hstbl, hstts]

theorem timingExtractorStructureWitness :
    getTimescaleAndDurations bC5 = .ok (some ⟨600, []⟩) :=
  ((timingExtractorStructure bC5).2 ⟨0, 48, moovTag⟩ ⟨8, 40, trakTag⟩ ⟨16, 32, mdiaTag⟩
    ⟨24, 24, mdhdTag⟩ 0 600 (by decide) (by decide) (by decide) (by decide) (by decide)
    (by decide)).1 (by decide)

theorem sttsLoop_unroll (b : List Nat) :
    ∀ (n pos : Nat) (acc : List Nat) (sc sd : Nat → Nat),
      (∀ i, i < n → getUint32 b (pos + 8*i) = .ok (sc i) ∧
        getUint32 b (pos + 8*i + 4) = .ok (sd i)) →
      sttsLoop b pos n acc
        = .ok (acc ++ ((List.range n).map (fun i => List.replicate (sc i) (sd i))).flatten) := by
  intro n
  induction n with
  | zero => intro pos acc sc sd _; simp [sttsLoop]
  | succ m ih =>
    intro pos acc sc sd h
    have hsc : getUint32 b pos = .ok (sc 0) := by simpa using (h 0 (by omega)).1
    have hsd : getUint32 b (pos + 4) = .ok (sd 0) := by simpa using (h 0 (by omega)).2
    have hrec : ∀ i, i < m → getUint32 b (pos + 8 + 8*i) = .ok (sc (i+1)) ∧
        getUint32 b (pos + 8 + 8*i + 4) = .ok (sd (i+1)) := by
      intro i hi
      have e1 : pos + 8 + 8*i = pos + 8*(i+1) := by ring
      rw [e1]
      exact h (i+1) (by omega)
    simp only [sttsLoop, hsc, hsd]
    rw [ih (pos + 8) (acc ++ List.replicate (sc 0) (sd 0))
      (fun i => sc (i+1)) (fun i => sd (i+1)) hrec]
    rw [List.range_succ_eq_map, List.map_cons, List.map_map, List.flatten_cons]
    simp [Function.comp_def, List.append_assoc]

/-- C6: given the reads of the n (sample_count, sample_delta) entries, the
    unroll loop appends, in entry order, sample_delta repeated sample_count
    times, and the total length is the sum of the sample counts. -/
theorem timeToSampleUnroll (b : List Nat) (n pos : Nat) (sc sd : Nat → Nat)
    (h : ∀ i, i < n → getUint32 b (pos + 8*i) = .ok (sc i) ∧
      getUint32 b (pos + 8*i + 4) = .ok (sd i)) :
    sttsLoop b pos n []
      = .ok (((List.range n).map (fun i => List.replicate (sc i) (sd i))).flatten) ∧
    (((List.range n).map (fun i => List.replicate (sc i) (sd i))).flatten).length
      = ((List.range n).map sc).sum := by
  constructor
  · simpa using sttsLoop_unroll b n pos [] sc sd h
  · simp [List.length_flatten, List.map_map, Function.comp_def]

theorem timeToSampleUnrollWitness : sttsLoop b6 8 2 [] = .ok [7, 7, 9] :=
  (timeToSampleUnroll b6 2 8 (fun i => 2 - i) (fun i => if i = 0 then 7 else 9)
    (by decide)).1

/-- C4: a qualifying unit yields a candidate payload exactly when, scanning
    from index 3, at least one 0x42 byte is consumed and the byte after the
    run is 0x69; the payload is then the bytes from just after the marker to
    one before the unit's end, passed through the emulation stripper, and is
    dropped when the stripped result is shorter than 4 bytes; a failed marker
    or short payload yields none (no error), and no payload means no decoded
    message. -/
theorem seiMarkerPayload (nal : List Nat) (i : Nat) (cand : List Nat)
    (hi : i = 3 + run42 (nal.drop 3))
    (hcand : cand = stripEmulationBytes ((nal.drop (i+1)).take (nal.length - 1 - (i+1)))) :
    (3 < i → nal[i]? = some 105 → 4 ≤ cand.length → seiPayload nal = some cand) ∧
    ((i ≤ 3 ∨ nal[i]? ≠ some 105) → seiPayload nal = none) ∧
    (cand.length < 4 → seiPayload nal = none) ∧
    (∀ (β : Type) (dec : List Nat → Option β),
      seiPayload nal = none → decodeSei dec nal = none) := by
  refine ⟨?_, ?_, ?_, ?_⟩
  · intro h3 h69 hlen4
    obtain ⟨hib, -⟩ := List.getElem?_eq_some.mp h69
    by_cases hlt : nal.length ≤ i + 1
    · exfalso
      have hz : nal.length - 1 - (i + 1) = 0 := by omega
      rw [hcand, hz] at hlen4
      simp [stripEmulationBytes] at hlen4
    · simp only [seiPayload]
      rw [if_neg (by omega : ¬ nal.length < 4), ← hi]
      rw [if_neg (by push_neg; exact ⟨by omega, by omega, h69⟩), ← hcand]
      rw [if_neg (by omega)]
  · intro hbad
    by_cases h4 : nal.length < 4
    · simp only [seiPayload, if_pos h4]
    · simp only [seiPayload]
      rw [if_neg h4, ← hi]
      rcases hbad with hb | hb
      · rw [if_pos (Or.inl hb)]
      · rw [if_pos (Or.inr (Or.inr hb))]
  · intro hsmall
    by_cases h4 : nal.length < 4
    · simp only [seiPayload, if_pos h4]
    · simp only [seiPayload]
      rw [if_neg h4, ← hi]
      by_cases hg : i ≤ 3 ∨ nal.length ≤ i + 1 ∨ nal[i]? ≠ some 105
      · rw [if_pos hg]
      · rw [if_neg hg, ← hcand, if_pos hsmall]
  · intro β dec h
    simp only [decodeSei, h]

theorem seiMarkerPayloadWitness :
    seiPayload [6, 5, 0, 66, 105, 9, 9, 9, 9, 119] = some [9, 9, 9, 9] ∧
    seiPayload [6, 5, 0, 105, 9, 9, 9, 9, 119] = none ∧
    seiPayload [6, 5, 0, 66, 105, 1, 2, 119] = none :=
  ⟨(seiMarkerPayload [6, 5, 0, 66, 105, 9, 9, 9, 9, 119] 4 [9, 9, 9, 9]
      (by decide) (by decide)).1 (by decide) (by decide) (by decide),
   (seiMarkerPayload [6, 5, 0, 105, 9, 9, 9, 9, 119] 3 [9, 9, 9, 9]
      (by decide) (by decide)).2.1 (Or.inl (by decide)),
   (seiMarkerPayload [6, 5, 0, 66, 105, 1, 2, 119] 4 [1, 2]
      (by decide) (by decide)).2.2.1 (by decide)⟩

theorem map_range_getElem (l : List Nat) :
    (List.range l.length).map (fun i => l[i]!) = l := by
  induction l with
  | nil => simp
  | cons a rest ih =>
    rw [List.length_cons, List.range_succ_eq_map, List.map_cons, List.map_map]
    simp only [Function.comp_def, Nat.succ_eq_add_one, List.getElem!_cons_succ,
      List.getElem!_cons_zero]
    rw [ih]

theorem filterMap_range_eq_map (n : Nat) (f : Nat → Option Nat) (g : Nat → Nat)
    (h : ∀ i, i < n → f i = some (g i)) :
    (List.range n).filterMap f = (List.range n).map g := by
  induction n with
  | zero => simp
  | succ m ih =>
    rw [List.range_succ, List.filterMap_append, List.map_append,
      ih (fun i hi => h i (by omega))]
    simp [h m (by omega)]

/-- C9: the stripper drops exactly the 0x03 bytes preceded by two 0x00 bytes
    (that is the filter it is defined by), so an input with no 0x00 0x00 0x03
    triplet passes through unchanged, and a second application to such data
    removes nothing further. -/
theorem emulationStripNoTriplet (data : List Nat)
    (h : ∀ i, i + 2 < data.length →
      ¬(data[i]! = 0 ∧ data[(i+1)]! = 0 ∧ data[(i+2)]! = 3)) :
    stripEmulationBytes data = data ∧
    stripEmulationBytes (stripEmulationBytes data) = stripEmulationBytes data := by
  have hfix : stripEmulationBytes data = data := by
    rw [stripEmulationBytes]
    rw [filterMap_range_eq_map data.length _ (fun i => data[i]!) ?hc]
    · exact map_range_getElem data
    case hc =>
      intro i hi
      have hnc : ¬(2 ≤ i ∧ data[(i-2)]! = 0 ∧ data[(i-1)]! = 0 ∧ data[i]! = 3) := by
        rintro ⟨h2, ha, hb, hc⟩
        have e1 : i - 2 + 1 = i - 1 := by omega
        have e2 : i - 2 + 2 = i := by omega
        exact h (i - 2) (by omega) (by rw [e1, e2]; exact ⟨ha, hb, hc⟩)
      rw [if_neg hnc]
  exact ⟨hfix, by rw [hfix]; exact hfix⟩

theorem emulationStripNoTripletWitness :
    stripEmulationBytes [1, 0, 0, 2, 5] = [1, 0, 0, 2, 5] ∧
    stripEmulationBytes (stripEmulationBytes [1, 0, 0, 2, 5])
      = stripEmulationBytes [1, 0, 0, 2, 5] :=
  emulationStripNoTriplet [1, 0, 0, 2, 5] (by
    intro i hi
    have h3 : i < 3 := by simp at hi; omega
    interval_cases i <;> decide)
